import Mathlib

/-!
Verification of the access-control annotation-and-filter engine of the
nextauth-uniform starter (shallow embedding of
`src/uniform/resolve.tsx` / the access-control enhancer, the callers in
`src/app/[locale]/cms/[[...path]]/page.tsx` and the protected CMS page,
and `src/lib/canvas-helpers.ts`).
-/

namespace NextauthUniform

/-- The `reason` enum of `AccessControlResult` in the source:
`'canvas-mode' | 'everyone' | 'requires-auth' | 'anonymous-only' | 'authorized'`. -/
inductive Reason : Type where
  | canvasMode
  | everyone
  | requiresAuth
  | anonymousOnly
  | authorized
deriving DecidableEq, Repr

/-- Source `interface AccessControlResult { allowed: boolean; reason: ... }`. -/
structure AccessControlResult : Type where
  allowed : Bool
  reason : Reason
deriving DecidableEq, Repr

/-- Source `interface EnhancedAuthState { isAuthenticated: boolean; user: unknown | null }`.
The opaque user payload is modelled as a `Nat` identifier; `none` is JS
`null`/`undefined`. A present user object is truthy in JS, which the
`Option` faithfully reflects. -/
structure EnhancedAuthState : Type where
  isAuthenticated : Bool
  user : Option Nat
deriving DecidableEq, Repr

/-- A next-auth session. Per `src/types/uniform.ts`
(`session?: { user?: unknown } | null`) the `user` field is itself
optional, so a session can exist without a user. -/
structure Session : Type where
  user : Option Nat
deriving DecidableEq, Repr

/-- A value stored in a component's `data` record. The enhancer stores
`EnhancedAuthState` under `_authState` and `AccessControlResult` under
`_accessControl`; anything else a caller may have put there is opaque. -/
inductive DataValue : Type where
  | authState (a : EnhancedAuthState)
  | accessControl (r : AccessControlResult)
  | other (s : String)
deriving DecidableEq, Repr

/-- Source `component.data`: a string-keyed record. -/
abbrev DataMap : Type := List (String × DataValue)

/-- Source `component.parameters`: parameter name to `value`. Only string-valued
parameters are relevant here (`accessType` is read with `as string`). -/
abbrev ParamMap : Type := List (String × String)

/-- First-match lookup in a string-keyed record. -/
def lookupField {α : Type} : List (String × α) → String → Option α
  | [], _ => none
  | (k₁, v₁) :: rest, k => if k₁ = k then some v₁ else lookupField rest k

/-- JS assignment `record[k] = v`: replace the binding in place when the
key is present, append it otherwise. -/
def setField {α : Type} : List (String × α) → String → α → List (String × α)
  | [], k, v => [(k, v)]
  | (k₁, v₁) :: rest, k, v =>
      if k₁ = k then (k, v) :: rest else (k₁, v₁) :: setField rest k v

/-- Source `AccessControlEnhancerContext`: `{ isCanvasMode?, session? }` (the
`preview` member is never read by the enhancer). -/
structure AccessControlEnhancerContext : Type where
  isCanvasMode : Bool
  session : Option Session
deriving DecidableEq, Repr

/-- JS `session?.user`: `none` when the session is absent or has no user. -/
def sessionUser (s : Option Session) : Option Nat :=
  s.bind Session.user

/-- The `_authState` data function of `createAccessControlEnhancer`:
`{ isAuthenticated: !!context.session?.user, user: context.session?.user || null }`. -/
def authStateData (ctx : AccessControlEnhancerContext) : EnhancedAuthState :=
  { isAuthenticated := (sessionUser ctx.session).isSome
    user := sessionUser ctx.session }

/-- JS falsiness of the `accessType` read
(`string | undefined`): `undefined` and the empty string are falsy. -/
def jsFalsyStr : Option String → Bool
  | none => true
  | some s => s == ""

/-- The `_accessControl` data function of `createAccessControlEnhancer`,
transcribed branch for branch:
1. Canvas mode: `{ allowed: true, reason: 'canvas-mode' }`.
2. `!accessType || accessType === 'everyone'`: `{ true, 'everyone' }`.
3. `accessType === 'users' && !isAuthenticated`: `{ false, 'requires-auth' }`.
4. `accessType === 'anonymous' && isAuthenticated`: `{ false, 'anonymous-only' }`.
5. Otherwise `{ true, 'authorized' }`. -/
def accessControlData (ctx : AccessControlEnhancerContext) (parameters : ParamMap) :
    AccessControlResult :=
  if ctx.isCanvasMode then
    { allowed := true, reason := Reason.canvasMode }
  else
    let accessType : Option String := lookupField parameters "accessType"
    if jsFalsyStr accessType || accessType == some "everyone" then
      { allowed := true, reason := Reason.everyone }
    else
      let isAuthenticated : Bool := (sessionUser ctx.session).isSome
      if accessType == some "users" && !isAuthenticated then
        { allowed := false, reason := Reason.requiresAuth }
      else if accessType == some "anonymous" && isAuthenticated then
        { allowed := false, reason := Reason.anonymousOnly }
      else
        { allowed := true, reason := Reason.authorized }

mutual
/-- A `ComponentInstance` of the composition tree: a `type`, a parameter
record, a `data` record, and named slots of ordered children. The root
(`RootComponentInstance`) has the same shape. -/
inductive ComponentInstance : Type where
  | mk (type : String) (parameters : ParamMap) (data : DataMap) (slots : Slots)
deriving DecidableEq, Repr

/-- Source `component.slots`: slot name to ordered child list. -/
inductive Slots : Type where
  | nil
  | cons (name : String) (children : Children) (rest : Slots)
deriving DecidableEq, Repr

/-- An ordered sequence of child components in one slot. -/
inductive Children : Type where
  | nil
  | cons (head : ComponentInstance) (tail : Children)
deriving DecidableEq, Repr
end

def ComponentInstance.type : ComponentInstance → String
  | .mk t _ _ _ => t

def ComponentInstance.parameters : ComponentInstance → ParamMap
  | .mk _ p _ _ => p

def ComponentInstance.data : ComponentInstance → DataMap
  | .mk _ _ d _ => d

def ComponentInstance.slots : ComponentInstance → Slots
  | .mk _ _ _ s => s

def Children.toList : Children → List ComponentInstance
  | .nil => []
  | .cons c cs => c :: Children.toList cs

def Children.append : Children → Children → Children
  | .nil, ds => ds
  | .cons c cs, ds => .cons c (Children.append cs ds)

def Children.filter (p : ComponentInstance → Bool) : Children → Children
  | .nil => .nil
  | .cons c cs =>
      if p c then .cons c (Children.filter p cs) else Children.filter p cs

def Children.map (f : ComponentInstance → ComponentInstance) : Children → Children
  | .nil => .nil
  | .cons c cs => .cons (f c) (Children.map f cs)

mutual
/-- Modelled from the spec: the vendor `enhance()` traversal is not in this
repository; per the spec the Annotator `walks the content tree and writes
two derived fields onto every node` (root and all descendants, across all
slots). Each node receives `data._authState` and `data._accessControl`
computed by the two data functions registered by
`createAccessControlEnhancer`, in registration order. -/
def annotateComp (ctx : AccessControlEnhancerContext) : ComponentInstance → ComponentInstance
  | .mk t p d s =>
      .mk t p
        (setField
          (setField d "_authState" (DataValue.authState (authStateData ctx)))
          "_accessControl" (DataValue.accessControl (accessControlData ctx p)))
        (annotateSlots ctx s)

/-- Annotation pass over a slot record. -/
def annotateSlots (ctx : AccessControlEnhancerContext) : Slots → Slots
  | .nil => .nil
  | .cons n cs rest => .cons n (annotateChildren ctx cs) (annotateSlots ctx rest)

/-- Annotation pass over one slot's children. -/
def annotateChildren (ctx : AccessControlEnhancerContext) : Children → Children
  | .nil => .nil
  | .cons c cs => .cons (annotateComp ctx c) (annotateChildren ctx cs)
end

/-- The keep predicate of `filterSlot` in the source:
`const accessControl = component.data?._accessControl;
if (!accessControl) return true;
return accessControl.allowed !== false;`
Only a stored access-control record with `allowed === false` is dropped;
an absent `_accessControl` (or a value of any other shape, whose
`.allowed` would be `undefined !== false`) keeps the component. -/
def keepComponent (c : ComponentInstance) : Bool :=
  match lookupField c.data "_accessControl" with
  | some (DataValue.accessControl r) => r.allowed != false
  | some _ => true
  | none => true

mutual
/-- Source `filterSlot` of the source: keep the children passing `keepComponent`,
then recursively filter each kept child's own slots (the source writes
this as `.filter(...).map(...)`; the fused recursion below computes the
same list, see `filterSlot_eq_filter_map`). -/
def filterSlot : Children → Children
  | .nil => .nil
  | .cons c rest =>
      if keepComponent c then
        .cons (filterComponentChildren c) (filterSlot rest)
      else
        filterSlot rest

/-- The `.map` body of `filterSlot`: replace every slot array of a kept
component by its filtered version, touching nothing else. -/
def filterComponentChildren : ComponentInstance → ComponentInstance
  | .mk t p d s => .mk t p d (filterAllSlots s)

/-- Source `Object.keys(component.slots).forEach(... = filterSlot(slot))`. -/
def filterAllSlots : Slots → Slots
  | .nil => .nil
  | .cons n cs rest => .cons n (filterSlot cs) (filterAllSlots rest)
end

/-- Source `filterUnauthorizedComponents(composition)`: filters every slot of the
root composition (the root node itself is never a removal candidate). -/
def filterUnauthorizedComponents : ComponentInstance → ComponentInstance
  | .mk t p d s => .mk t p d (filterAllSlots s)

mutual
/-- Every node of a tree: the node itself and, recursively, all nodes in
all of its slots (preorder). -/
def compNodes : ComponentInstance → List ComponentInstance
  | .mk t p d s => ComponentInstance.mk t p d s :: slotsNodes s

/-- All nodes below a slot record. -/
def slotsNodes : Slots → List ComponentInstance
  | .nil => []
  | .cons _ cs rest => childrenNodes cs ++ slotsNodes rest

/-- All nodes of all trees of one slot. -/
def childrenNodes : Children → List ComponentInstance
  | .nil => []
  | .cons c cs => compNodes c ++ childrenNodes cs
end

/-- The request inputs feeding canvas-mode detection: the server-validated
draft-mode flag (`(await draftMode()).isEnabled`, not forgeable by query
string) and the raw `is_incontext_editing_mode` query parameter. -/
structure RequestFlags : Type where
  isDraftModeEnabled : Bool
  is_incontext_editing_mode : Option String
deriving DecidableEq, Repr

/-- Source `CMSPage` (src/app/[locale]/cms/[[...path]]/page.tsx, lines 90 to 92):
`const isIncontextEditing = searchParams?.is_incontext_editing_mode === 'true';
const isCanvasMode = isDraftMode || isIncontextEditing;` -/
def pageIsCanvasMode (r : RequestFlags) : Bool :=
  r.isDraftModeEnabled || (r.is_incontext_editing_mode == some "true")

/-- Source `HomePage` (protected CMS page, lines 340 to 341):
`const isCanvasMode = isDraftMode || searchParams?.is_incontext_editing_mode === "true";` -/
def homePageIsCanvasMode (r : RequestFlags) : Bool :=
  r.isDraftModeEnabled || (r.is_incontext_editing_mode == some "true")

/-- Source `getCanvasMode` of `src/lib/canvas-helpers.ts`:
`const isCanvasMode = isContextualEditing && (isDraftMode || serverDraftMode);`
(an absent optional boolean is falsy, hence `false` here). -/
def getCanvasModeFlag (isContextualEditing isDraftMode serverDraftMode : Bool) : Bool :=
  isContextualEditing && (isDraftMode || serverDraftMode)

/-- Source `ProtectedCMSPage` (protected CMS page, lines 86 to 92): builds
`{ isContextualEditing: searchParams?.is_incontext_editing_mode === 'true',
isDraftMode }` and takes `isCanvasMode` from `getDisplayUser`, which returns
`getCanvasMode`'s conjunction; that flag is what this page passes to the
enhancer and the filter-skip check (lines 153 and 159). Both draft reads
(the `isDraftMode` it passes in and the helper's own `serverDraftMode`) are
the same request's `draftMode().isEnabled`. -/
def protectedPageIsCanvasMode (r : RequestFlags) : Bool :=
  getCanvasModeFlag (r.is_incontext_editing_mode == some "true")
    r.isDraftModeEnabled r.isDraftModeEnabled

/-- The enhancement-and-filter step of `CMSPage` (lines 176 to 189) and of
`HomePage` (lines 369 to 385): run the enhancer with
`{ isCanvasMode, session }`, then
`if (!isCanvasMode) filterUnauthorizedComponents(composition);`. -/
def cmsPageEnhanceAndFilter (isCanvasMode : Bool) (session : Option Session)
    (composition : ComponentInstance) : ComponentInstance :=
  let ctx : AccessControlEnhancerContext := ⟨isCanvasMode, session⟩
  let enhanced := annotateComp ctx composition
  if !isCanvasMode then filterUnauthorizedComponents enhanced else enhanced

/-! ## Record lemmas -/

theorem lookupField_setField_self {α : Type} (d : List (String × α)) (k : String) (v : α) :
    lookupField (setField d k v) k = some v := by
  induction d with
  | nil => simp [setField, lookupField]
  | cons hd tl ih =>
      obtain ⟨k₁, v₁⟩ := hd
      by_cases h : k₁ = k
      · simp [setField, lookupField, h]
      · simp [setField, lookupField, h, ih]

theorem lookupField_setField_ne {α : Type} (d : List (String × α)) (k k₁ : String) (v : α)
    (h : k₁ ≠ k) : lookupField (setField d k v) k₁ = lookupField d k₁ := by
  induction d with
  | nil => simp [setField, lookupField, Ne.symm h]
  | cons hd tl ih =>
      obtain ⟨k₂, v₂⟩ := hd
      by_cases hk : k₂ = k
      · subst hk
        simp [setField, lookupField, Ne.symm h]
      · simp [setField, lookupField, hk, ih]

theorem setField_of_lookup {α : Type} (d : List (String × α)) (k : String) (v : α)
    (h : lookupField d k = some v) : setField d k v = d := by
  induction d with
  | nil => simp [lookupField] at h
  | cons hd tl ih =>
      obtain ⟨k₁, v₁⟩ := hd
      by_cases hk : k₁ = k
      · subst hk
        simp [lookupField] at h
        simp [setField, h]
      · simp [lookupField, hk] at h
        simp [setField, hk, ih h]

/-- The `data` record written onto a node by one annotation pass. -/
def annotatedData (ctx : AccessControlEnhancerContext) (p : ParamMap) (d : DataMap) : DataMap :=
  setField (setField d "_authState" (DataValue.authState (authStateData ctx)))
    "_accessControl" (DataValue.accessControl (accessControlData ctx p))

theorem lookup_annotatedData_authState (ctx : AccessControlEnhancerContext)
    (p : ParamMap) (d : DataMap) :
    lookupField (annotatedData ctx p d) "_authState"
      = some (DataValue.authState (authStateData ctx)) := by
  unfold annotatedData
  rw [lookupField_setField_ne _ _ _ _ (by decide)]
  exact lookupField_setField_self _ _ _

theorem lookup_annotatedData_accessControl (ctx : AccessControlEnhancerContext)
    (p : ParamMap) (d : DataMap) :
    lookupField (annotatedData ctx p d) "_accessControl"
      = some (DataValue.accessControl (accessControlData ctx p)) :=
  lookupField_setField_self _ _ _

theorem annotatedData_idem (ctx : AccessControlEnhancerContext) (p : ParamMap) (d : DataMap) :
    annotatedData ctx p (annotatedData ctx p d) = annotatedData ctx p d := by
  have h₁ : setField (annotatedData ctx p d) "_authState"
      (DataValue.authState (authStateData ctx)) = annotatedData ctx p d :=
    setField_of_lookup _ _ _ (lookup_annotatedData_authState ctx p d)
  show setField (setField (annotatedData ctx p d) "_authState" _) "_accessControl" _
      = annotatedData ctx p d
  rw [h₁]
  exact setField_of_lookup _ _ _ (lookup_annotatedData_accessControl ctx p d)

theorem annotateComp_eq (ctx : AccessControlEnhancerContext) (t : String) (p : ParamMap)
    (d : DataMap) (s : Slots) :
    annotateComp ctx (.mk t p d s) = .mk t p (annotatedData ctx p d) (annotateSlots ctx s) := by
  simp [annotateComp, annotatedData]

/-! ## Annotation pass lemmas -/

mutual
theorem annotate_nodes_data (ctx : AccessControlEnhancerContext) :
    ∀ (c : ComponentInstance), ∀ n ∈ compNodes (annotateComp ctx c),
      lookupField n.data "_authState" = some (DataValue.authState (authStateData ctx))
      ∧ ∃ p, lookupField n.data "_accessControl"
          = some (DataValue.accessControl (accessControlData ctx p))
  | .mk t p d s, n, hn => by
      rw [annotateComp_eq] at hn
      simp only [compNodes, List.mem_cons] at hn
      rcases hn with h | h
      · subst h
        exact ⟨lookup_annotatedData_authState ctx p d,
          p, lookup_annotatedData_accessControl ctx p d⟩
      · exact annotate_nodes_data_slots ctx s n h

theorem annotate_nodes_data_slots (ctx : AccessControlEnhancerContext) :
    ∀ (s : Slots), ∀ n ∈ slotsNodes (annotateSlots ctx s),
      lookupField n.data "_authState" = some (DataValue.authState (authStateData ctx))
      ∧ ∃ p, lookupField n.data "_accessControl"
          = some (DataValue.accessControl (accessControlData ctx p))
  | .nil, n, hn => by simp [annotateSlots, slotsNodes] at hn
  | .cons nm cs rest, n, hn => by
      simp only [annotateSlots, slotsNodes, List.mem_append] at hn
      rcases hn with h | h
      · exact annotate_nodes_data_children ctx cs n h
      · exact annotate_nodes_data_slots ctx rest n h

theorem annotate_nodes_data_children (ctx : AccessControlEnhancerContext) :
    ∀ (cs : Children), ∀ n ∈ childrenNodes (annotateChildren ctx cs),
      lookupField n.data "_authState" = some (DataValue.authState (authStateData ctx))
      ∧ ∃ p, lookupField n.data "_accessControl"
          = some (DataValue.accessControl (accessControlData ctx p))
  | .nil, n, hn => by simp [annotateChildren, childrenNodes] at hn
  | .cons c cs, n, hn => by
      simp only [annotateChildren, childrenNodes, List.mem_append] at hn
      rcases hn with h | h
      · exact annotate_nodes_data ctx c n h
      · exact annotate_nodes_data_children ctx cs n h
end

mutual
theorem annotateComp_idem_aux (ctx : AccessControlEnhancerContext) :
    ∀ (c : ComponentInstance), annotateComp ctx (annotateComp ctx c) = annotateComp ctx c
  | .mk t p d s => by
      rw [annotateComp_eq, annotateComp_eq, annotatedData_idem,
        annotateSlots_idem_aux ctx s]

theorem annotateSlots_idem_aux (ctx : AccessControlEnhancerContext) :
    ∀ (s : Slots), annotateSlots ctx (annotateSlots ctx s) = annotateSlots ctx s
  | .nil => rfl
  | .cons nm cs rest => by
      rw [annotateSlots, annotateSlots, annotateChildren_idem_aux ctx cs,
        annotateSlots_idem_aux ctx rest]

theorem annotateChildren_idem_aux (ctx : AccessControlEnhancerContext) :
    ∀ (cs : Children), annotateChildren ctx (annotateChildren ctx cs) = annotateChildren ctx cs
  | .nil => rfl
  | .cons c cs => by
      rw [annotateChildren, annotateChildren, annotateComp_idem_aux ctx c,
        annotateChildren_idem_aux ctx cs]
end

/-! ## Filter pass lemmas -/

/-- Fidelity of the fused recursion to the source's
`components.filter(keep).map(recurse)` shape. -/
theorem filterSlot_eq_filter_map :
    ∀ (cs : Children),
      filterSlot cs = Children.map filterComponentChildren (Children.filter keepComponent cs)
  | .nil => rfl
  | .cons c cs => by
      by_cases h : keepComponent c = true
      · simp [filterSlot, Children.filter, Children.map, h, filterSlot_eq_filter_map cs]
      · simp [filterSlot, Children.filter, h, filterSlot_eq_filter_map cs]

theorem filterSlot_append :
    ∀ (cs ds : Children),
      filterSlot (Children.append cs ds) = Children.append (filterSlot cs) (filterSlot ds)
  | .nil, ds => rfl
  | .cons c cs, ds => by
      by_cases h : keepComponent c = true
      · simp [Children.append, filterSlot, h, filterSlot_append cs ds]
      · simp [Children.append, filterSlot, h, filterSlot_append cs ds]

theorem keepComponent_filterComponentChildren (c : ComponentInstance) :
    keepComponent (filterComponentChildren c) = keepComponent c := by
  cases c with
  | mk t p d s => rfl

theorem filter_toList_sublist (p : ComponentInstance → Bool) :
    ∀ (cs : Children), List.Sublist (Children.toList (Children.filter p cs)) (Children.toList cs)
  | .nil => List.Sublist.slnil
  | .cons c cs => by
      by_cases h : p c = true
      · simpa [Children.filter, Children.toList, h] using
          List.Sublist.cons₂ c (filter_toList_sublist p cs)
      · simpa [Children.filter, Children.toList, h] using
          List.Sublist.cons c (filter_toList_sublist p cs)

mutual
theorem filterSlot_idem_aux :
    ∀ (cs : Children), filterSlot (filterSlot cs) = filterSlot cs
  | .nil => rfl
  | .cons c cs => by
      by_cases h : keepComponent c = true
      · rw [filterSlot, if_pos h, filterSlot,
          if_pos (by rw [keepComponent_filterComponentChildren]; exact h),
          filterComponentChildren_idem_aux c, filterSlot_idem_aux cs]
      · rw [filterSlot, if_neg h, filterSlot_idem_aux cs]

theorem filterComponentChildren_idem_aux :
    ∀ (c : ComponentInstance),
      filterComponentChildren (filterComponentChildren c) = filterComponentChildren c
  | .mk t p d s => by
      rw [filterComponentChildren, filterComponentChildren, filterAllSlots_idem_aux s]

theorem filterAllSlots_idem_aux :
    ∀ (s : Slots), filterAllSlots (filterAllSlots s) = filterAllSlots s
  | .nil => rfl
  | .cons nm cs rest => by
      rw [filterAllSlots, filterAllSlots, filterSlot_idem_aux cs, filterAllSlots_idem_aux rest]
end

/-! ## Sample components used to instantiate theorems -/

/-- A component whose stored access decision denies viewing, carrying an
individually allowed child in a slot. -/
def sampleDenied : ComponentInstance :=
  ComponentInstance.mk "secret" []
    [("_accessControl", DataValue.accessControl { allowed := false, reason := Reason.requiresAuth })]
    (Slots.cons "inner"
      (Children.cons
        (ComponentInstance.mk "pub" []
          [("_accessControl", DataValue.accessControl { allowed := true, reason := Reason.everyone })]
          Slots.nil)
        Children.nil)
      Slots.nil)

/-- A bare component with no annotation data at all. -/
def samplePlain : ComponentInstance := ComponentInstance.mk "plain" [] [] Slots.nil

/-! ## Claim theorems -/

/-- C1, counterexample: with the server-validated draft indicator off, a bare
`is_incontext_editing_mode=true` query string alone already makes the
`isCanvasMode` flag that `CMSPage` and `HomePage` pass to the enhancer true,
so the flag is not the conjunction the claim states. -/
theorem C1_counterexample :
    (RequestFlags.mk false (some "true")).isDraftModeEnabled = false
    ∧ pageIsCanvasMode (RequestFlags.mk false (some "true")) = true
    ∧ homePageIsCanvasMode (RequestFlags.mk false (some "true")) = true :=
  ⟨rfl, rfl, rfl⟩

/-- C1, amended: the editor-bypass flag passed to the Annotator depends on
the route. `ProtectedCMSPage` passes `getCanvasMode`'s output through
`getDisplayUser`, and for it the claimed rule holds: the flag is true only
when the editor query flag is set AND the secure draft indicator is active
(in particular a bare query-string flag does not make it true there). But
`CMSPage` and `HomePage` pass the disjunction of the draft indicator and
the query flag, so on those routes either indicator alone — including a
bare query-string flag — makes the flag true. -/
theorem C1_amended :
    (∀ r : RequestFlags,
        pageIsCanvasMode r
          = (r.isDraftModeEnabled || (r.is_incontext_editing_mode == some "true")))
    ∧ (∀ r : RequestFlags, homePageIsCanvasMode r = pageIsCanvasMode r)
    ∧ (∀ r : RequestFlags,
        protectedPageIsCanvasMode r
          = ((r.is_incontext_editing_mode == some "true") && r.isDraftModeEnabled))
    ∧ (∀ isContextualEditing isDraftMode serverDraftMode : Bool,
        getCanvasModeFlag isContextualEditing isDraftMode serverDraftMode
          = (isContextualEditing && (isDraftMode || serverDraftMode)))
    ∧ protectedPageIsCanvasMode (RequestFlags.mk false (some "true")) = false
    ∧ protectedPageIsCanvasMode (RequestFlags.mk true none) = false
    ∧ protectedPageIsCanvasMode (RequestFlags.mk true (some "true")) = true := by
  refine ⟨fun _ => rfl, fun _ => rfl, fun r => ?_, fun _ _ _ => rfl, rfl, rfl, rfl⟩
  simp [protectedPageIsCanvasMode, getCanvasModeFlag, Bool.or_self]

/-- C2: with editor bypass off, a child whose stored access decision is
`allowed == false` is removed from its slot together with its entire subtree
(the filtered slot equals the filter of the slot without that child, so none
of its descendants, allowed or not, can appear); a kept child stays in place
with its own slots recursively filtered; the result is the recursive filter
of an order-preserving sublist of the original children. -/
theorem C2_filter_semantics :
    (∀ (cs₁ : Children) (c : ComponentInstance) (cs₂ : Children),
        keepComponent c = false →
        filterSlot (Children.append cs₁ (Children.cons c cs₂))
          = filterSlot (Children.append cs₁ cs₂))
    ∧ (∀ (cs₁ : Children) (c : ComponentInstance) (cs₂ : Children),
        keepComponent c = true →
        filterSlot (Children.append cs₁ (Children.cons c cs₂))
          = Children.append (filterSlot cs₁)
              (Children.cons (filterComponentChildren c) (filterSlot cs₂)))
    ∧ (∀ cs : Children,
        filterSlot cs = Children.map filterComponentChildren (Children.filter keepComponent cs))
    ∧ (∀ cs : Children,
        List.Sublist (Children.toList (Children.filter keepComponent cs)) (Children.toList cs)) := by
  refine ⟨?_, ?_, filterSlot_eq_filter_map, filter_toList_sublist keepComponent⟩
  · intro cs₁ c cs₂ h
    rw [filterSlot_append, filterSlot_append]
    simp [filterSlot, h]
  · intro cs₁ c cs₂ h
    rw [filterSlot_append]
    simp [filterSlot, h]

/-- Witness for C2 at a concrete denied component with an allowed child. -/
theorem C2_witness :
    keepComponent sampleDenied = false
    ∧ filterSlot (Children.append Children.nil (Children.cons sampleDenied Children.nil))
      = filterSlot (Children.append Children.nil Children.nil) :=
  ⟨rfl, C2_filter_semantics.1 Children.nil sampleDenied Children.nil rfl⟩

/-- C3, counterexample: next-auth sessions may carry no `user`
(`session?: { user?: unknown } | null`); for such a non-null session the
enhancer stores `_authState.isAuthenticated = false` because the code
computes `!!session?.user`, not `session != null` as the claim states. -/
theorem C3_counterexample :
    (some (Session.mk none) : Option Session) ≠ none
    ∧ lookupField
        (annotateComp ⟨false, some (Session.mk none)⟩
          (ComponentInstance.mk "page" [] [] Slots.nil)).data "_authState"
      = some (DataValue.authState { isAuthenticated := false, user := none }) :=
  ⟨by simp, rfl⟩

/-- C3, amended: after one annotation pass with a fixed context, every node
of the tree carries the same `_authState`, namely
`{ isAuthenticated: session?.user != null, user: session?.user ?? null }`:
`isAuthenticated` is true exactly when the session is non-null AND contains
a user, independent of the node inspected. -/
theorem C3_amended (ctx : AccessControlEnhancerContext) (c : ComponentInstance) :
    ∀ n ∈ compNodes (annotateComp ctx c),
      lookupField n.data "_authState"
        = some (DataValue.authState
            { isAuthenticated := (sessionUser ctx.session).isSome
              user := sessionUser ctx.session }) :=
  fun n hn => (annotate_nodes_data ctx c n hn).1

/-- Witness for C3 at a concrete authenticated context and one-node tree. -/
theorem C3_witness :
    lookupField
      (annotateComp ⟨false, some (Session.mk (some 7))⟩
        (ComponentInstance.mk "page" [] [] Slots.nil)).data "_authState"
      = some (DataValue.authState { isAuthenticated := true, user := some 7 }) :=
  C3_amended ⟨false, some (Session.mk (some 7))⟩ (ComponentInstance.mk "page" [] [] Slots.nil)
    (annotateComp ⟨false, some (Session.mk (some 7))⟩ (ComponentInstance.mk "page" [] [] Slots.nil))
    (by rw [annotateComp_eq]; simp [compNodes])

/-- C4: with editor bypass off, a node whose `accessType` parameter is
`users` receives `_accessControl.allowed` equal to `isAuthenticated`
(`!!session?.user`), and a node with `anonymous` receives its negation, for
every session state; annotation stores exactly this decision on the node. -/
theorem C4_users_anonymous (ctx : AccessControlEnhancerContext)
    (h : ctx.isCanvasMode = false) :
    (∀ p : ParamMap, lookupField p "accessType" = some "users" →
        (accessControlData ctx p).allowed = (sessionUser ctx.session).isSome)
    ∧ (∀ p : ParamMap, lookupField p "accessType" = some "anonymous" →
        (accessControlData ctx p).allowed = !(sessionUser ctx.session).isSome)
    ∧ (∀ (t : String) (p : ParamMap) (d : DataMap) (s : Slots),
        lookupField (annotateComp ctx (ComponentInstance.mk t p d s)).data "_accessControl"
          = some (DataValue.accessControl (accessControlData ctx p))) := by
  refine ⟨fun p hp => ?_, fun p hp => ?_, fun t p d s => ?_⟩
  · cases hs : (sessionUser ctx.session).isSome <;>
      simp [accessControlData, h, hp, jsFalsyStr, hs]
  · cases hs : (sessionUser ctx.session).isSome <;>
      simp [accessControlData, h, hp, jsFalsyStr, hs]
  · rw [annotateComp_eq]
    simpa [ComponentInstance.data] using lookup_annotatedData_accessControl ctx p d

/-- Witness for C4 at a logged-out context and a `users` node. -/
theorem C4_witness :
    (AccessControlEnhancerContext.mk false none).isCanvasMode = false
    ∧ (accessControlData ⟨false, none⟩ [("accessType", "users")]).allowed
      = (sessionUser (none : Option Session)).isSome :=
  ⟨rfl, (C4_users_anonymous ⟨false, none⟩ rfl).1 [("accessType", "users")] rfl⟩

/-- C5: when the bypass flag passed to the enhancer is true, every node of
the annotated tree (whatever its `accessType` and whatever the session)
carries `_accessControl = { allowed: true, reason: canvas-mode }`, and the
page pipeline skips the Filter entirely, returning the annotated tree with
no node removed. -/
theorem C5_canvas_bypass (ctx : AccessControlEnhancerContext) (c : ComponentInstance)
    (h : ctx.isCanvasMode = true) :
    (∀ n ∈ compNodes (annotateComp ctx c),
        lookupField n.data "_accessControl"
          = some (DataValue.accessControl { allowed := true, reason := Reason.canvasMode }))
    ∧ cmsPageEnhanceAndFilter ctx.isCanvasMode ctx.session c = annotateComp ctx c := by
  obtain ⟨cm, sess⟩ := ctx
  simp only [AccessControlEnhancerContext.isCanvasMode] at h
  subst h
  constructor
  · intro n hn
    obtain ⟨-, p, hp⟩ := annotate_nodes_data ⟨true, sess⟩ c n hn
    rw [hp]
    simp [accessControlData]
  · simp [cmsPageEnhanceAndFilter]

/-- Witness for C5 at a concrete canvas-mode context. -/
theorem C5_witness :
    (AccessControlEnhancerContext.mk true none).isCanvasMode = true
    ∧ cmsPageEnhanceAndFilter true none samplePlain = annotateComp ⟨true, none⟩ samplePlain :=
  ⟨rfl, (C5_canvas_bypass ⟨true, none⟩ samplePlain rfl).2⟩

/-- C6: at every level the Filter keeps exactly the children whose stored
`_accessControl.allowed !== false`; a child with no `_accessControl` present
is kept (fail-open), and every kept child still has its own slots
recursively filtered by the same rule. -/
theorem C6_keep_rule :
    (∀ cs : Children,
        filterSlot cs = Children.map filterComponentChildren (Children.filter keepComponent cs))
    ∧ (∀ c : ComponentInstance,
        lookupField c.data "_accessControl" = none → keepComponent c = true)
    ∧ (∀ (c : ComponentInstance) (r : AccessControlResult),
        lookupField c.data "_accessControl" = some (DataValue.accessControl r) →
        keepComponent c = (r.allowed != false))
    ∧ (∀ (t : String) (p : ParamMap) (d : DataMap) (s : Slots),
        filterComponentChildren (ComponentInstance.mk t p d s)
          = ComponentInstance.mk t p d (filterAllSlots s)) := by
  refine ⟨filterSlot_eq_filter_map, ?_, ?_, fun t p d s => rfl⟩
  · intro c h
    simp [keepComponent, h]
  · intro c r h
    simp [keepComponent, h]

/-- Witness for C6 at a concrete unannotated component. -/
theorem C6_witness :
    lookupField samplePlain.data "_accessControl" = none
    ∧ keepComponent samplePlain = true :=
  ⟨rfl, C6_keep_rule.2.1 samplePlain rfl⟩

/-- C7: the Annotator is idempotent: annotating an already-annotated tree
with the same context rewrites the same `_authState`/`_accessControl`
values onto every node and changes nothing else, so the second pass is the
identity on the annotated tree. -/
theorem C7_annotator_idempotent (ctx : AccessControlEnhancerContext) (c : ComponentInstance) :
    annotateComp ctx (annotateComp ctx c) = annotateComp ctx c :=
  annotateComp_idem_aux ctx c

/-- C8: the Filter is idempotent: surviving nodes keep their
`_accessControl` data, so a second pass keeps them all again and removes
nothing further. -/
theorem C8_filter_idempotent (c : ComponentInstance) :
    filterUnauthorizedComponents (filterUnauthorizedComponents c)
      = filterUnauthorizedComponents c := by
  cases c with
  | mk t p d s => simp [filterUnauthorizedComponents, filterAllSlots_idem_aux s]

/-- C9, counterexample: an unknown `accessType` such as `legacy` yields
`{ allowed: true, reason: authorized }`, while an absent `accessType` yields
`{ allowed: true, reason: everyone }` — so the result is permissive but not
exactly the record produced when `accessType` is absent. -/
theorem C9_counterexample :
    accessControlData ⟨false, none⟩ [("accessType", "legacy")]
      = { allowed := true, reason := Reason.authorized }
    ∧ accessControlData ⟨false, none⟩ []
      = { allowed := true, reason := Reason.everyone }
    ∧ ({ allowed := true, reason := Reason.authorized } : AccessControlResult)
      ≠ { allowed := true, reason := Reason.everyone } :=
  ⟨rfl, rfl, by decide⟩

/-- C9, amended: an unknown `accessType` value (any string other than the
empty string, `everyone`, `users`, `anonymous`) is a permissive fallback:
`allowed` is true for every session state and no error is raised, but the
recorded reason is `authorized`, not the absent-case `everyone`; the empty
string, being falsy in JS, is treated exactly as absent. -/
theorem C9_amended :
    (∀ (ctx : AccessControlEnhancerContext) (p : ParamMap) (v : String),
        ctx.isCanvasMode = false →
        lookupField p "accessType" = some v →
        v ≠ "" → v ≠ "everyone" → v ≠ "users" → v ≠ "anonymous" →
        accessControlData ctx p = { allowed := true, reason := Reason.authorized })
    ∧ (∀ (ctx : AccessControlEnhancerContext) (p : ParamMap),
        ctx.isCanvasMode = false →
        lookupField p "accessType" = some "" →
        accessControlData ctx p = { allowed := true, reason := Reason.everyone }) := by
  constructor
  · intro ctx p v hc hp h₁ h₂ h₃ h₄
    simp [accessControlData, hc, hp, jsFalsyStr, h₁, h₂, h₃, h₄]
  · intro ctx p hc hp
    simp [accessControlData, hc, hp, jsFalsyStr]

/-- Witness for C9 at a concrete unknown value. -/
theorem C9_witness :
    lookupField [("accessType", "legacy")] "accessType" = some "legacy"
    ∧ accessControlData ⟨false, none⟩ [("accessType", "legacy")]
      = { allowed := true, reason := Reason.authorized } :=
  ⟨rfl, C9_amended.1 ⟨false, none⟩ [("accessType", "legacy")] "legacy" rfl rfl
    (by decide) (by decide) (by decide) (by decide)⟩

/-- C10: the Filter never removes the root composition node itself — even a
root whose own data says `allowed == false` is returned with its type,
parameters and data untouched — and on every node it keeps (root included)
it mutates only the slot arrays, leaving type, parameters and data
(including `_authState` and `_accessControl`) unchanged. -/
theorem C10_root_and_frame :
    (∀ (t : String) (p : ParamMap) (d : DataMap) (s : Slots),
        filterUnauthorizedComponents (ComponentInstance.mk t p d s)
          = ComponentInstance.mk t p d (filterAllSlots s))
    ∧ (∀ c : ComponentInstance,
        (filterUnauthorizedComponents c).type = c.type
        ∧ (filterUnauthorizedComponents c).parameters = c.parameters
        ∧ (filterUnauthorizedComponents c).data = c.data)
    ∧ (∀ c : ComponentInstance,
        (filterComponentChildren c).type = c.type
        ∧ (filterComponentChildren c).parameters = c.parameters
        ∧ (filterComponentChildren c).data = c.data)
    ∧ (∀ cs : Children,
        filterSlot cs = Children.map filterComponentChildren (Children.filter keepComponent cs)) := by
  refine ⟨fun t p d s => rfl, fun c => ?_, fun c => ?_, filterSlot_eq_filter_map⟩
  · cases c with
    | mk t p d s => exact ⟨rfl, rfl, rfl⟩
  · cases c with
    | mk t p d s => exact ⟨rfl, rfl, rfl⟩

end NextauthUniform
